import Mathlib

/-!
Verification of the conversational agent session engine of the qinhang
backend (src/modules/ai-agent/index.ts, src/modules/session/index.ts,
src/modules/ai-agent/ui-tools.ts, src/shared/ui-resources/factory.ts).

The TypeScript data values are embedded shallowly: OpenAI chat messages
become the `Msg` inductive, JS `Map`s become association lists, JS numbers
holding integral quantities become `Nat`/`Int`, `Date` values become `Nat`
milliseconds, and exceptions become `Except`.  External collaborators
(the OpenAI provider, the Google calendar, the mail transport, the loaded
knowledge base) are parameters of the embedding: an `Env` record fixes the
outcome each collaborator would produce during one exchange.
-/

namespace Qinhang

/-! ## Data model: tool calls and chat messages -/

/-- The booking-details object of `show_booking_action_buttons`
(ui-tools.ts).  `Option` fields model absent JSON properties. -/
structure BookingDetails where
  name : Option String := none
  email : Option String := none
  phone : Option String := none
  location : Option String := none
  requestedTimes : List String := []
  lessonType : Option String := none
  studentAge : Option String := none
deriving DecidableEq

/-- The union of the argument objects the registered tools accept
(index.ts tool schemas and ui-tools.ts schemas); every field is optional
because the model's JSON is not validated against the schemas. -/
structure ToolArgs where
  query : Option String := none
  topics : List String := []
  days : Option Nat := none
  locale : Option String := none
  context : Option String := none
  name : Option String := none
  email : Option String := none
  phone : Option String := none
  location : Option String := none
  requestedTimes : List String := []
  lessonType : Option String := none
  studentAge : Option String := none
  conversationSummary : Option String := none
  message : Option String := none
  recipient : Option String := none
  businessName : Option String := none
  bookingDetails : Option BookingDetails := none
deriving DecidableEq

/-- The raw `arguments` string of a tool call as `JSON.parse` sees it at
index.ts:526/791: either it parses to an argument object or parsing
throws a `SyntaxError`. -/
inductive RawArgs where
  | malformed (raw : String)
  | parsed (a : ToolArgs)
deriving DecidableEq

/-- One OpenAI tool call `{id, function: {name, arguments}}`.  All calls
returned by the chat-completions API have `type === 'function'`, which is
the only kind the loop processes. -/
structure ToolCall where
  id : String
  name : String
  arguments : RawArgs
deriving DecidableEq

/-- One element of a stored chat history
(`OpenAI.Chat.ChatCompletionMessageParam` restricted to the roles the
engine stores; the system prompt is prepended per provider call and never
stored).  An assistant message carries `content` (possibly `null`) and
its `tool_calls` (absent encoded as `[]`). -/
inductive Msg where
  | user (content : String)
  | assistant (content : Option String) (tool_calls : List ToolCall)
  | tool (tool_call_id : String) (content : String)
deriving DecidableEq

/-! ## Transcript trimming (index.ts lines 571-602 and 860-891) -/

def MAX_HISTORY_LENGTH : Nat := 20

def isToolMsg : Msg → Bool
  | .tool _ _ => true
  | _ => false

/-- Lines 578-581: `while (trimmedHistory[0]?.role === 'tool') slice(1)`. -/
def dropLeadingTools : List Msg → List Msg
  | [] => []
  | m :: rest => if isToolMsg m then dropLeadingTools rest else m :: rest

/-- Lines 586-599: if the first message is an assistant message with
nonempty `tool_calls` and the second message is not a `tool` message,
drop the assistant message (checked once, by role only). -/
def dropDanglingAssistant (l : List Msg) : List Msg :=
  match l with
  | .assistant c tcs :: rest =>
    if tcs.isEmpty then .assistant c tcs :: rest
    else
      match rest with
      | .tool cid s :: rest2 => .assistant c tcs :: .tool cid s :: rest2
      | _ => rest
  | other => other

/-- Lines 573-601: when the history exceeds `MAX_HISTORY_LENGTH`, keep the
most recent `MAX_HISTORY_LENGTH` messages (`slice(-MAX_HISTORY_LENGTH)`)
and repair the cut edge. -/
def trimHistory (history : List Msg) : List Msg :=
  if MAX_HISTORY_LENGTH < history.length then
    dropDanglingAssistant (dropLeadingTools
      (history.drop (history.length - MAX_HISTORY_LENGTH)))
  else history

/-- Scan of Invariant A: every `tool` message must be preceded by an
assistant message whose `tool_calls` contain its call id.  `seen`
accumulates the call ids of the assistant messages already scanned. -/
def noOrphanFrom (seen : List String) : List Msg → Bool
  | [] => true
  | .user _ :: rest => noOrphanFrom seen rest
  | .assistant _ tcs :: rest => noOrphanFrom (seen ++ tcs.map (fun tc => tc.id)) rest
  | .tool cid _ :: rest => decide (cid ∈ seen) && noOrphanFrom seen rest

def noOrphanTool (l : List Msg) : Bool := noOrphanFrom [] l

/-- The shape of histories the agent loop actually produces: a sequence of
blocks, where each assistant message with tool calls is immediately
followed by one `tool` answer per call, contiguous and in order
(index.ts lines 515-541), and other messages stand alone. -/
inductive Blocks : List Msg → Prop
  | nil : Blocks []
  | userTurn (s : String) {rest : List Msg} :
      Blocks rest → Blocks (.user s :: rest)
  | plainAssistant (c : Option String) {rest : List Msg} :
      Blocks rest → Blocks (.assistant c [] :: rest)
  | toolBlock (c : Option String) (tcs : List ToolCall) (txts : List String)
      {rest : List Msg} (hne : tcs ≠ []) (hlen : txts.length = tcs.length) :
      Blocks rest →
      Blocks (.assistant c tcs ::
        (List.zipWith (fun tc t => Msg.tool tc.id t) tcs txts ++ rest))

/-- A list that is a run of tool messages followed by a block-shaped
history: the shape of `history.drop k` for block-shaped `history`. -/
def SuffixShape (l : List Msg) : Prop :=
  ∃ ts h2, l = ts ++ h2 ∧ (∀ m ∈ ts, isToolMsg m = true) ∧ Blocks h2

/-! ## Tool registry and dispatcher (index.ts `executeToolCall`,
ui-tools.ts `executeUITool`, ui-resources/factory.ts) -/

/-- A knowledge-base document (knowledge-retrieval.ts). -/
structure KDoc where
  topic : String
  content : String
deriving DecidableEq

/-- Configuration flags and the outcomes the external collaborators and
the loaded knowledge base would produce during one exchange.
`searchKnowledgeFn`, `knowledgeByTopic` and `extractSection` abstract the
pure, total retrieval functions of knowledge-retrieval.ts (their scoring
uses floating-point weights, so they are kept as parameters; the engine
contract only requires them to be total on strings, which they are).
`calendarSummary` and `sendEmailOutcome` are `Except` values: `.error`
means the collaborator call throws. -/
structure Env where
  googleConfigured : Bool
  gmailConfigured : Bool
  calendarSummary : Except String String
  sendEmailOutcome : Except String Unit
  searchKnowledgeFn : String → List KDoc
  knowledgeByTopic : String → Option KDoc
  extractSection : String → String → String

/-- JS truthiness of an optional string property (absent or empty string
is falsy). -/
def truthy : Option String → Bool
  | none => false
  | some s => !(s == "")

/-- `String.prototype.includes` via `splitOn` (all patterns used are
nonempty keywords). -/
def strIncludes (s pat : String) : Bool := (s.splitOn pat).length != 1

/-- The opaque UI resource payloads produced by
factory.createContactButtons / createBookingActionButtons /
createEmailForm / createPricingTable; the engine forwards them verbatim
and never inspects them. -/
inductive UIRes where
  | contactButtons (locale : String) (context : Option String) (hasConversation : Bool)
  | bookingActionButtons (locale : String) (bookingDetails : BookingDetails)
  | emailForm (locale : String)
  | pricingTable (locale : String)
deriving DecidableEq

/-- The two locales the factory translation tables define.  Every factory
method dereferences `translations[locale]` (factory.ts lines 55, 226,
467, 719), so any other locale string makes it throw a `TypeError`. -/
def validLocale (locale : String) : Bool := locale == "en" || locale == "zh"

def createContactButtons (locale : String) (context : Option String)
    (hasConversation : Bool) : Except String UIRes :=
  if validLocale locale then .ok (.contactButtons locale context hasConversation)
  else .error ("TypeError: undefined translations for locale " ++ locale)

def createBookingActionButtons (locale : String) (bd : BookingDetails) :
    Except String UIRes :=
  if validLocale locale then .ok (.bookingActionButtons locale bd)
  else .error ("TypeError: undefined translations for locale " ++ locale)

def createEmailForm (locale : String) : Except String UIRes :=
  if validLocale locale then .ok (.emailForm locale)
  else .error ("TypeError: undefined translations for locale " ++ locale)

def createPricingTable (locale : String) : Except String UIRes :=
  if validLocale locale then .ok (.pricingTable locale)
  else .error ("TypeError: undefined translations for locale " ++ locale)

/-- The normalized result of one tool execution:
`{text, uiResource?}`. -/
structure ToolResult where
  text : String
  uiResource : Option UIRes := none
deriving DecidableEq

/-- index.ts lines 219-229: the conversation history passed to UI tools,
keeping only user/assistant messages whose content is a string. -/
def simpleHistory (hist : List Msg) : List (String × String) :=
  hist.filterMap fun m =>
    match m with
    | .user s => some (("user", s))
    | .assistant (some s) _ => some (("assistant", s))
    | _ => none

def uiToolNames : List String :=
  ["show_contact_buttons", "show_booking_action_buttons", "show_email_form",
   "show_pricing_table", "initiate_booking", "send_contact_email"]

/-- ui-tools.ts `executeUITool`.  An `.error` result models a thrown
exception escaping the function; the `send_contact_email` branch wraps
its whole send (including building the html body from `args.message`) in
try/catch, so failures there come back as `.ok` fallback text. -/
def executeUITool (env : Env) (toolName : String) (args : ToolArgs)
    (sendEmailProvided : Bool) (hist : List (String × String)) :
    Except String ToolResult :=
  let locale := args.locale.getD ("en")
  if toolName == "show_contact_buttons" then
    match createContactButtons locale args.context (!hist.isEmpty) with
    | .error e => .error e
    | .ok ui =>
      .ok { text := if locale == "zh" then "这里有一些快速联系方式："
                    else "Here are some quick ways to get in touch:",
            uiResource := some ui }
  else if toolName == "show_booking_action_buttons" then
    match args.bookingDetails with
    | none =>
      .ok { text := "ERROR: Cannot show booking buttons without contact information. Please collect name/email/phone first." }
    | some bd =>
      if !truthy bd.name && !truthy bd.email && !truthy bd.phone then
        .ok { text := "ERROR: Cannot show booking buttons without contact information. Please collect name/email/phone first." }
      else
        match createBookingActionButtons locale bd with
        | .error e => .error e
        | .ok ui =>
          .ok { text := if locale == "zh" then "很好！请选择您想如何发送预订请求："
                        else "Perfect! How would you like to send your booking request?",
                uiResource := some ui }
  else if toolName == "show_email_form" then
    match createEmailForm locale with
    | .error e => .error e
    | .ok ui =>
      .ok { text := if locale == "zh" then "请填写下面的表格，我会把您的信息发送给 CC："
                    else "Please fill out the form below and I’ll send your details to CC:",
            uiResource := some ui }
  else if toolName == "show_pricing_table" then
    match createPricingTable locale with
    | .error e => .error e
    | .ok ui =>
      .ok { text := if locale == "zh" then "这是我们的课程价格："
                    else "Here’s our lesson pricing:",
            uiResource := some ui }
  else if toolName == "initiate_booking" then
    match createContactButtons locale
        (some ("booking-" ++ args.lessonType.getD ("undefined"))) (!hist.isEmpty) with
    | .error e => .error e
    | .ok ui =>
      let lessonName :=
        if args.lessonType == some ("individual") then
          if locale == "zh" then "一对一课程" else "individual lessons"
        else
          if locale == "zh" then "小组课程" else "group lessons"
      .ok { text := if locale == "zh" then "太好了！您想预订" ++ lessonName ++ "。请选择您的联系方式："
                    else "Great! You’re interested in " ++ lessonName ++ ". How would you like to get in touch?",
            uiResource := some ui }
  else if toolName == "send_contact_email" then
    if !sendEmailProvided then
      .error ("Email function not provided to UI tool executor")
    else
      match args.message with
      | none =>
        -- building the html body does `message.replace`, throwing a
        -- TypeError that the surrounding try/catch converts to text
        .ok { text := if locale == "zh"
                then "发送邮件时出错：message.replace is not a function"
                else "Failed to send email: message.replace is not a function" }
      | some _ =>
        match env.sendEmailOutcome with
        | .error e =>
          .ok { text := if locale == "zh" then "发送邮件时出错：" ++ e
                        else "Failed to send email: " ++ e }
        | .ok _ =>
          .ok { text := if locale == "zh" then "您的邮件已成功发送！CC 会尽快回复您。"
                        else "Your email has been sent successfully! CC will get back to you soon." }
  else .error ("Unknown UI tool: " ++ toolName)

def outOfAreaKeywords : List String :=
  ["cork", "galway", "limerick", "waterford", "kilkenny", "wexford",
   "kerry", "clare", "mayo", "donegal"]

/-- index.ts `executeToolCall` (lines 213-355).  Takes already-parsed
arguments: `JSON.parse` happens at the call sites (lines 526 and 791),
outside this function.  An `.error` result models an exception escaping
`executeToolCall` into the route handler. -/
def executeToolCall (env : Env) (toolName : String) (args : ToolArgs)
    (hist : List Msg) : Except String ToolResult :=
  if toolName ∈ uiToolNames then
    executeUITool env toolName args true (simpleHistory hist)
  else if toolName == "search_knowledge" then
    match args.query with
    | none =>
      -- searchKnowledge / extractRelevantSection call
      -- `query.toLowerCase()` on undefined: TypeError escapes (no catch)
      .error ("TypeError: query is undefined")
    | some q =>
      let topicResults := args.topics.foldr (fun topic acc =>
        match env.knowledgeByTopic topic with
        | some doc =>
          ("## Information from " ++ topic ++ ":\n\n" ++ env.extractSection doc.content q) :: acc
        | none => acc) []
      if !args.topics.isEmpty && !topicResults.isEmpty then
        .ok { text := String.intercalate "\n\n---\n\n" topicResults }
      else
        match env.searchKnowledgeFn q with
        | [] =>
          .ok { text := "No specific information found in the knowledge base for this query. Use show_contact_buttons tool to let the user reach out to CC for details." }
        | results =>
          let formatted := (results.take 2).map fun doc =>
            "## " ++ doc.topic ++ ":\n\n" ++ env.extractSection doc.content q
          .ok { text := String.intercalate "\n\n---\n\n" formatted }
  else if toolName == "check_calendar_availability" then
    if !env.googleConfigured then
      .ok { text := "Calendar checking is not currently available. Please ask the user to contact CC directly at 085 726 7963 or cczcy333@gmail.com to check availability." }
    else
      match env.calendarSummary with
      | .ok s => .ok { text := s }
      | .error e =>
        .ok { text := "Unable to check calendar at the moment. Please suggest the user contact CC directly at 085 726 7963 or cczcy333@gmail.com. Error: " ++ e }
  else if toolName == "send_booking_inquiry" then
    -- the whole branch body is inside try/catch (lines 291-351)
    if !env.gmailConfigured then
      .ok { text := "Email sending is not currently available. Please ask the user to contact CC directly at 085 726 7963 or cczcy333@gmail.com." }
    else if !truthy args.email && !truthy args.phone then
      .ok { text := "ERROR: Cannot send booking inquiry without email or phone number. Please collect contact information from the user first." }
    else if !truthy args.location then
      .ok { text := "ERROR: Location is required for booking inquiries. Please ask the user for their location/area (e.g., Lucan, Clondalkin, etc.) so CC can assess travel feasibility." }
    else
      let loc := args.location.getD ("")
      if outOfAreaKeywords.any (fun k => strIncludes loc.toLower k) then
        .ok { text := "ERROR: " ++ loc ++ " is outside CC’s teaching area. Please inform the user that CC’s service area generally covers Westmeath, Meath, and surrounding counties (roughly 50km from Kinnegad). Do NOT send a booking inquiry for out-of-area locations." }
      else
        match env.sendEmailOutcome with
        | .error e =>
          .ok { text := "Failed to send booking inquiry. Please ask the user to contact CC directly at 085 726 7963 or cczcy333@gmail.com. Error: " ++ e }
        | .ok _ =>
          let details :=
            (if truthy args.name then [("Name: " ++ args.name.getD (""))] else []) ++
            [("Location: " ++ loc)] ++
            [("Contact: " ++ (if truthy args.email then args.email.getD ("") else args.phone.getD ("")))] ++
            (if !args.requestedTimes.isEmpty then
              [("Requested times: " ++ String.intercalate ", " args.requestedTimes)] else [])
          .ok { text := "Booking inquiry successfully sent to CC! The inquiry includes:\n" ++
            String.intercalate "\n" (details.map (fun d => "- " ++ d)) ++
            "\n\nCC will review the request and get back to you soon via " ++
            (if truthy args.phone then "WhatsApp/phone" else "email") ++
            " to confirm which times work based on the schedule and location." }
  else .ok { text := "Tool not found" }

/-- Sufficient well-formedness of a parsed argument object for tool
dispatch not to throw: `search_knowledge` needs a `query` string, and a
UI tool needs a locale the factory translation tables define. -/
def ArgsOk (toolName : String) (args : ToolArgs) : Bool :=
  (toolName != "search_knowledge" || args.query.isSome) &&
  (!(uiToolNames.contains toolName) || validLocale (args.locale.getD ("en")))

/-! ## Session quota ledger (src/modules/session/index.ts) -/

def MAX_MESSAGES_PER_TOKEN : Int := 25
def MAX_TOKENS_PER_IP_PER_DAY : Nat := 3
/-- 24 hours in milliseconds, used both for the token TTL and for the
per-origin throttle window. -/
def DAY_MS : Nat := 24 * 60 * 60 * 1000

/-- One session token record; times are epoch milliseconds. -/
structure Session where
  expiresAt : Nat
  messagesRemaining : Int
deriving DecidableEq

/-- One per-origin throttle record of `tokenCreationByIp`. -/
structure IpData where
  count : Nat
  resetAt : Nat
deriving DecidableEq

/-- Association-list model of a JS `Map` with string keys. -/
def mapGet {α : Type} : List (String × α) → String → Option α
  | [], _ => none
  | (k2, v) :: rest, k => if k2 == k then some v else mapGet rest k

def mapSet {α : Type} : List (String × α) → String → α → List (String × α)
  | [], k, v => [(k, v)]
  | (k2, v2) :: rest, k, v =>
    if k2 == k then (k, v) :: rest else (k2, v2) :: mapSet rest k v

def mapDel {α : Type} : List (String × α) → String → List (String × α)
  | [], _ => []
  | (k2, v2) :: rest, k =>
    if k2 == k then mapDel rest k else (k2, v2) :: mapDel rest k

/-- session/index.ts `validateSessionToken` (lines 168-179): returns the
session unless absent or expired; an expired session is evicted as a side
effect. -/
def validateSessionToken (sessions : List (String × Session)) (token : String)
    (now : Nat) : Option Session × List (String × Session) :=
  match mapGet sessions token with
  | none => (none, sessions)
  | some s =>
    if s.expiresAt < now then (none, mapDel sessions token)
    else (some s, sessions)

/-- session/index.ts `decrementSessionMessages` (lines 181-189): the only
mutation of `messagesRemaining`. -/
def decrementSessionMessages (sessions : List (String × Session))
    (token : String) : Bool × List (String × Session) :=
  match mapGet sessions token with
  | none => (false, sessions)
  | some s =>
    if s.messagesRemaining ≤ 0 then (false, sessions)
    else (true, mapSet sessions token
      { s with messagesRemaining := s.messagesRemaining - 1 })

/-- Outcome of `POST /session/create`. -/
inductive CreateOut where
  | blocked (retryAfter : Nat)
  | created (s : Session)
deriving DecidableEq

/-- session/index.ts lines 52-106: the origin-throttle check and session
mint for one origin.  Input is the origin's current throttle record and
the clock; output is the HTTP outcome and the origin's new record.  (The
intermediate `delete` of an elapsed record is unobservable because the
update step re-reads the captured `ipData` value.) -/
def createSession (ipData : Option IpData) (now : Nat) :
    CreateOut × Option IpData :=
  match ipData with
  | some d =>
    if now < d.resetAt && MAX_TOKENS_PER_IP_PER_DAY ≤ d.count then
      (.blocked d.resetAt, some d)
    else
      let newSession : Session :=
        { expiresAt := now + DAY_MS, messagesRemaining := MAX_MESSAGES_PER_TOKEN }
      let newRec : IpData :=
        if now < d.resetAt then { d with count := d.count + 1 }
        else { count := 1, resetAt := now + DAY_MS }
      (.created newSession, some newRec)
  | none =>
    (.created { expiresAt := now + DAY_MS, messagesRemaining := MAX_MESSAGES_PER_TOKEN },
     some { count := 1, resetAt := now + DAY_MS })

/-! ## The agent loop (index.ts lines 497-569 / 759-823) -/

/-- `response.choices[0]?.message` of one completions call. -/
structure ModelMessage where
  content : Option String := none
  tool_calls : List ToolCall := []
deriving DecidableEq

/-- What one non-streamed `openai.chat.completions.create` call yields:
a message, a missing message (line 506: throws `No response from
OpenAI`), or a transport failure (the API call itself throws). -/
inductive ProviderResult where
  | ok (m : ModelMessage)
  | noMessage
  | transportError (e : String)
deriving DecidableEq

/-- The model provider, indexed by the number of non-streamed calls the
exchange has already made. -/
def Provider : Type := Nat → ProviderResult

def maxIterations : Nat := 5

/-- Result of executing one batch of tool calls (lines 522-541): either
the updated history and collected UI resources, or a thrown exception
(`JSON.parse` failure or an exception escaping `executeToolCall`)
together with the history the shared array holds at the throw. -/
inductive BatchOut where
  | ok (hist : List Msg) (ui : List UIRes)
  | thrown (e : String) (hist : List Msg)
deriving DecidableEq

def runToolBatch (env : Env) : List ToolCall → List Msg → List UIRes → BatchOut
  | [], hist, ui => .ok hist ui
  | tc :: rest, hist, ui =>
    match tc.arguments with
    | .malformed raw => .thrown ("SyntaxError: Unexpected token in JSON: " ++ raw) hist
    | .parsed a =>
      match executeToolCall env tc.name a hist with
      | .error e => .thrown e hist
      | .ok r =>
        let ui2 := match r.uiResource with
          | some u => ui ++ [u]
          | none => ui
        runToolBatch env rest (hist ++ [Msg.tool tc.id r.text]) ui2

/-- Result of the tool-call loop: the final assistant message, the
history and UI resources so far, the number of provider calls made, and
the call trace (`false` = non-streamed call); or a failure with the
history at the throw. -/
inductive LoopOut where
  | done (finalMsg : ModelMessage) (hist : List Msg) (ui : List UIRes)
      (calls : Nat) (trace : List Bool)
  | failed (e : String) (hist : List Msg) (calls : Nat) (trace : List Bool)
deriving DecidableEq

/-- Lines 515-563: `while (assistantMessage.tool_calls?.length > 0 &&
iterations < maxIterations)`.  `fuel = maxIterations - iterations`;
`calls` counts the provider calls already made (so the next call has
index `calls`). -/
def agentLoop (provider : Provider) (env : Env) :
    Nat → ModelMessage → List Msg → List UIRes → Nat → List Bool → LoopOut
  | 0, am, hist, ui, calls, trace => .done am hist ui calls trace
  | fuel + 1, am, hist, ui, calls, trace =>
    if am.tool_calls.isEmpty then .done am hist ui calls trace
    else
      let hist1 := hist ++ [Msg.assistant am.content am.tool_calls]
      match runToolBatch env am.tool_calls hist1 ui with
      | .thrown e h => .failed e h calls trace
      | .ok h2 ui2 =>
        match provider calls with
        | .ok am2 =>
          agentLoop provider env fuel am2 h2 ui2 (calls + 1) (trace ++ [false])
        | .noMessage =>
          .failed ("No response from OpenAI") h2 (calls + 1) (trace ++ [false])
        | .transportError e => .failed e h2 (calls + 1) (trace ++ [false])

/-- Result of the provider phase of one exchange, after the user message
was appended: `ok` carries the reply content, the full (untrimmed)
history including the final assistant push (line 566), the UI resources
and the provider-call count; `err` carries the history the shared array
holds when the exception reaches the route's catch. -/
inductive ExchangeOut where
  | ok (reply : Option String) (finalHist : List Msg) (ui : List UIRes)
      (calls : Nat) (trace : List Bool)
  | err (e : String) (histAtThrow : List Msg) (calls : Nat) (trace : List Bool)
deriving DecidableEq

/-- The initial completions call followed by the tool-call loop — the
part shared verbatim between `/ai/chat` (lines 497-563) and
`/ai/chat/stream` (lines 759-823, a duplicate that merely skips UI
collection). -/
def providerPhase (provider : Provider) (env : Env) (hist1 : List Msg) :
    LoopOut :=
  match provider 0 with
  | .noMessage => .failed ("No response from OpenAI") hist1 1 [false]
  | .transportError e => .failed e hist1 1 [false]
  | .ok am => agentLoop provider env maxIterations am hist1 [] 1 [false]

/-- Lines 497-569: initial completions call, the tool-call loop, and the
final assistant push `{role:'assistant', content: content || ''}`. -/
def chatExchange (provider : Provider) (env : Env) (hist1 : List Msg) :
    ExchangeOut :=
  match providerPhase provider env hist1 with
  | .failed e h calls trace => .err e h calls trace
  | .done amF h ui calls trace =>
    .ok amF.content (h ++ [Msg.assistant (some (amF.content.getD (""))) []])
      ui calls trace

/-! ## The chat route (index.ts lines 379-629) -/

/-- The module-level mutable state the chat routes touch: the session
store, the per-conversation histories, and the concurrency guard. -/
structure ServerState where
  sessions : List (String × Session)
  chatHistories : List (String × List Msg)
  activeRequests : List String
deriving DecidableEq

structure ChatRequest where
  message : String
  sessionId : Option String := none
  sessionToken : Option String := none
deriving DecidableEq

structure ChatResponse where
  status : Nat
  reply : Option String := none
  messagesRemaining : Option Int := none
  uiResources : List UIRes := []
deriving DecidableEq

/-- Lines 444-457: the guard check and set; there is no suspension point
between them, so check-and-set is atomic.  `none` means the request is
rejected (429) without being queued. -/
def guardAcquire (active : List String) (id : String) : Option (List String) :=
  if active.contains id then none else some (id :: active)

/-- Line 627 (`finally`): `activeRequests.delete(sessionId)`. -/
def guardRelease (active : List String) (id : String) : List String :=
  active.filter (fun x => x != id)

/-- The stored history after an exchange that threw: `history` aliases
the array in `chatHistories`, so pushes persist for a pre-existing
conversation even though `chatHistories.set` is never reached; for a
fresh conversation the array was never stored. -/
def storeOnThrow (histories : List (String × List Msg)) (sessionId : String)
    (histAtThrow : List Msg) : List (String × List Msg) :=
  if (mapGet histories sessionId).isSome then mapSet histories sessionId histAtThrow
  else histories

/-- `POST /ai/chat` (lines 389-629).  `freshId` stands for the
`randomUUID()` used when the request carries no `sessionId`. -/
def handleChat (provider : Provider) (env : Env) (now : Nat)
    (st : ServerState) (req : ChatRequest) (freshId : String) :
    ChatResponse × ServerState :=
  if req.message == "" then ({ status := 400 }, st)
  else
    match req.sessionToken with
    | none => ({ status := 401 }, st)
    | some token =>
      match validateSessionToken st.sessions token now with
      | (none, sessions1) => ({ status := 401 }, { st with sessions := sessions1 })
      | (some session, sessions1) =>
        if session.messagesRemaining ≤ 0 then
          ({ status := 403, messagesRemaining := some 0 }, { st with sessions := sessions1 })
        else
          let sessionId := req.sessionId.getD freshId
          if 10000 < req.message.length then
            ({ status := 400 }, { st with sessions := sessions1 })
          else
            match guardAcquire st.activeRequests sessionId with
            | none => ({ status := 429 }, { st with sessions := sessions1 })
            | some active1 =>
              -- inside try { ... } finally { activeRequests.delete }
              let history0 := (mapGet st.chatHistories sessionId).getD []
              let hist1 := history0 ++ [Msg.user req.message]
              match decrementSessionMessages sessions1 token with
              | (false, sessions2) =>
                ({ status := 500 },
                 { sessions := sessions2,
                   chatHistories := storeOnThrow st.chatHistories sessionId hist1,
                   activeRequests := guardRelease active1 sessionId })
              | (true, sessions2) =>
                match chatExchange provider env hist1 with
                | .err _ h _ _ =>
                  ({ status := 500 },
                   { sessions := sessions2,
                     chatHistories := storeOnThrow st.chatHistories sessionId h,
                     activeRequests := guardRelease active1 sessionId })
                | .ok reply finalHist ui _ _ =>
                  -- the response echoes `session.messagesRemaining` from the
                  -- aliased session object, which decrementSessionMessages
                  -- has already decremented by one
                  ({ status := 200, reply := reply,
                     messagesRemaining := some (session.messagesRemaining - 1),
                     uiResources := ui },
                   { sessions := sessions2,
                     chatHistories := mapSet st.chatHistories sessionId (trimHistory finalHist),
                     activeRequests := guardRelease active1 sessionId })

/-! ## The streaming chat route (index.ts lines 631-919) -/

/-- One Server-Sent-Events write of the streaming route: a
`{content}` delta (line 850), the final `{done:true}` (line 899), or the
`{error}` event written by the catch (line 910). -/
inductive SSE where
  | contentChunk (s : String)
  | done
  | fatal (e : String)
deriving DecidableEq

inductive StreamResponse where
  | httpError (status : Nat)
  | sse (events : List SSE)
deriving DecidableEq

structure StreamResult where
  response : StreamResponse
  state : ServerState
  /-- provider-call trace: `false` = non-streamed call, `true` =
  streamed call, in order. -/
  trace : List Bool
deriving DecidableEq

/-- `POST /ai/chat/stream` (lines 642-919).  `streams n` is the list of
`delta.content` chunks the n-th streaming `completions.create` call of
the exchange would yield.  The tool-resolution phase runs non-streamed
first; afterwards one call with `stream: true` is made (lines 837-841),
its non-empty chunks are written as `{content}` events, the assistant
message with the accumulated text is pushed, the history trimmed and
saved, and `{done:true}` is written. -/
def handleChatStream (provider : Provider) (env : Env)
    (streams : Nat → List String) (now : Nat) (st : ServerState)
    (req : ChatRequest) (freshId : String) : StreamResult :=
  if req.message == "" then ⟨.httpError 400, st, []⟩
  else
    match req.sessionToken with
    | none => ⟨.httpError 401, st, []⟩
    | some token =>
      match validateSessionToken st.sessions token now with
      | (none, sessions1) => ⟨.httpError 401, { st with sessions := sessions1 }, []⟩
      | (some session, sessions1) =>
        if session.messagesRemaining ≤ 0 then
          ⟨.httpError 403, { st with sessions := sessions1 }, []⟩
        else
          let sessionId := req.sessionId.getD freshId
          if 10000 < req.message.length then
            ⟨.httpError 400, { st with sessions := sessions1 }, []⟩
          else
            match guardAcquire st.activeRequests sessionId with
            | none => ⟨.httpError 429, { st with sessions := sessions1 }, []⟩
            | some active1 =>
              let history0 := (mapGet st.chatHistories sessionId).getD []
              let hist1 := history0 ++ [Msg.user req.message]
              match decrementSessionMessages sessions1 token with
              | (false, sessions2) =>
                ⟨.httpError 500,
                 { sessions := sessions2,
                   chatHistories := storeOnThrow st.chatHistories sessionId hist1,
                   activeRequests := guardRelease active1 sessionId }, []⟩
              | (true, sessions2) =>
                match providerPhase provider env hist1 with
                | .failed e h _ trace =>
                  ⟨.sse [SSE.fatal e],
                   { sessions := sessions2,
                     chatHistories := storeOnThrow st.chatHistories sessionId h,
                     activeRequests := guardRelease active1 sessionId }, trace⟩
                | .done _ h _ _ trace =>
                  let chunks := (streams 0).filter (fun c => c != "")
                  let fullContent := String.join chunks
                  let final := h ++ [Msg.assistant (some fullContent) []]
                  ⟨.sse ((chunks.map SSE.contentChunk) ++ [SSE.done]),
                   { sessions := sessions2,
                     chatHistories := mapSet st.chatHistories sessionId (trimHistory final),
                     activeRequests := guardRelease active1 sessionId },
                   trace ++ [true]⟩

/-- `DELETE /ai/chat/:sessionId` (lines 976-984): no token check, no
existence check; deletes whatever history is stored under the id and
returns `{success: true}`. -/
def deleteChatHistory (histories : List (String × List Msg))
    (sessionId : String) : Bool × List (String × List Msg) :=
  (true, mapDel histories sessionId)

/-! ## Guard event traces

An abstract interleaving of chat requests touching the guard: a request
either passes the guard check-and-set (`begin`), observes the guard held
and is rejected (`reject`), or completes and runs its `finally`
(`finish`).  The check-and-set of lines 444-457 has no suspension point,
so each event is atomic. -/

inductive GuardEvent where
  | begin (id : String)
  | reject (id : String)
  | finish (id : String)

def guardStep (active : List String) : GuardEvent → Option (List String)
  | .begin id => guardAcquire active id
  | .reject id => if active.contains id then some active else none
  | .finish id => if active.contains id then some (guardRelease active id) else none

def guardRun : List String → List GuardEvent → Option (List String)
  | active, [] => some active
  | active, e :: es =>
    match guardStep active e with
    | none => none
    | some a2 => guardRun a2 es

/-! ## Helper predicates and result extractors -/

/-- Number of provider calls an exchange made. -/
def exchangeCalls : ExchangeOut → Nat
  | .ok _ _ _ calls _ => calls
  | .err _ _ calls _ => calls

/-- Whether a stored transcript ends on an assistant message that still
has `tool_calls` (so, with no `tool` message after it): the situation
Invariant B forbids. -/
def endsOnUnansweredAssistant (l : List Msg) : Bool :=
  match l.getLast? with
  | some (.assistant _ tcs) => !tcs.isEmpty
  | _ => false

/-- A tool call whose raw arguments parse and satisfy `ArgsOk`: dispatch
of such a call cannot throw. -/
def goodCall (tc : ToolCall) : Bool :=
  match tc.arguments with
  | .malformed _ => false
  | .parsed a => ArgsOk tc.name a

/-! ## Concrete inputs for counterexamples and witnesses -/

/-- An environment where every external collaborator is down or
unconfigured and the knowledge base is empty. -/
def env0 : Env :=
  { googleConfigured := false
    gmailConfigured := false
    calendarSummary := .error ("calendar offline")
    sendEmailOutcome := .error ("mail transport down")
    searchKnowledgeFn := fun _ => []
    knowledgeByTopic := fun _ => none
    extractSection := fun _ _ => "" }

def tcOrphanA : ToolCall := ⟨"call_a", "check_calendar_availability", .parsed {}⟩
def tcOrphanB : ToolCall := ⟨"call_b", "check_calendar_availability", .parsed {}⟩

/-- A 21-message history whose cut edge, after `slice(-20)`, starts with
an assistant message holding call id `call_a` immediately followed by a
`tool` message answering `call_b` — the answer to the assistant message
sliced away. -/
def orphanTrimInput : List Msg :=
  Msg.assistant none [tcOrphanB] :: Msg.assistant none [tcOrphanA] ::
    Msg.tool ("call_b") ("result b") :: List.replicate 18 (Msg.user ("padding"))

def tcBlockW : ToolCall := ⟨"call_w", "check_calendar_availability", .parsed {}⟩

/-- A 21-message block-shaped history: a complete tool block followed by
19 user messages. -/
def blockHistory : List Msg :=
  Msg.assistant (some ("checking")) [tcBlockW] ::
    Msg.tool ("call_w") ("free slots") :: List.replicate 19 (Msg.user ("padding"))

/-- A provider that answers every call with a tool call whose raw JSON
arguments do not parse. -/
def malformedCallProvider : Provider := fun _ =>
  .ok { content := none,
        tool_calls := [⟨"call_1", "search_knowledge", .malformed ("\x7b")⟩] }

/-- A provider that requests another (well-formed) tool call on every
invocation: the adversarial tool-calling cycle. -/
def advProvider : Provider := fun _ =>
  .ok { content := some ("one more"),
        tool_calls := [⟨"call_adv", "check_calendar_availability", .parsed {}⟩] }

/-- Whether one completions call fails the exchange: the API transport
throws, or `choices[0]?.message` is missing so line 506 throws
`No response from OpenAI`. -/
def isProviderFailure : ProviderResult → Bool
  | .ok _ => false
  | .noMessage => true
  | .transportError _ => true

/-- A provider whose transport fails on every call. -/
def failProvider : Provider := fun _ => .transportError ("ECONNREFUSED")

/-- A provider whose every response carries no message
(`choices[0]?.message` undefined). -/
def noMsgProvider : Provider := fun _ => .noMessage

/-- A provider that immediately answers with plain content. -/
def plainProvider : Provider := fun _ =>
  .ok { content := some ("hello"), tool_calls := [] }

/-- Chunk lists for the streaming call: two non-empty deltas with an
empty one between them. -/
def streams0 : Nat → List String := fun _ => ["He", "", "llo"]

/-- A server state holding one valid session and one stored
conversation. -/
def stPre : ServerState :=
  { sessions := [(("tok1"), { expiresAt := 1000, messagesRemaining := 5 })]
    chatHistories := [(("conv1"),
      [Msg.user ("hello"), Msg.assistant (some ("hi there")) []])]
    activeRequests := [] }

def reqPre : ChatRequest :=
  { message := "book a lesson", sessionId := some ("conv1"),
    sessionToken := some ("tok1") }

/-- `stPre` with a request already in flight for `conv1`. -/
def stBusy : ServerState := { stPre with activeRequests := [("conv1")] }

/-- Iterated `decrementSessionMessages` on one token. -/
def decNTimes (token : String) : Nat → List (String × Session) → List (String × Session)
  | 0, m => m
  | k + 1, m => decNTimes token k (decrementSessionMessages m token).2

/-- Whether `k` successive decrements on `token` all return `true`. -/
def allAccepted (token : String) : Nat → List (String × Session) → Bool
  | 0, _ => true
  | k + 1, m =>
    (decrementSessionMessages m token).1 &&
      allAccepted token k (decrementSessionMessages m token).2

/-- A store holding one fresh session with the full message quota. -/
def freshSessionStore : List (String × Session) :=
  [(("t25"), { expiresAt := DAY_MS, messagesRemaining := MAX_MESSAGES_PER_TOKEN })]

/-- The body of `handleChat` once every request guard has passed
(helper for stating the evaluation lemma `handleChat_eq`). -/
def handleChatCore (provider : Provider) (env : Env) (st : ServerState)
    (token sessionId message : String) (s : Session) : ChatResponse × ServerState :=
  let hist1 := (mapGet st.chatHistories sessionId).getD [] ++ [Msg.user message]
  let sessions2 :=
    mapSet st.sessions token { s with messagesRemaining := s.messagesRemaining - 1 }
  match chatExchange provider env hist1 with
  | .err _ h _ _ =>
    ({ status := 500 },
     { sessions := sessions2,
       chatHistories := storeOnThrow st.chatHistories sessionId h,
       activeRequests := st.activeRequests })
  | .ok reply finalHist ui _ _ =>
    ({ status := 200, reply := reply,
       messagesRemaining := some (s.messagesRemaining - 1),
       uiResources := ui },
     { sessions := sessions2,
       chatHistories := mapSet st.chatHistories sessionId (trimHistory finalHist),
       activeRequests := st.activeRequests })

/-- The body of `handleChatStream` once every request guard has passed
(helper for stating the evaluation lemma `handleChatStream_eq`). -/
def handleChatStreamCore (provider : Provider) (env : Env)
    (streams : Nat → List String) (st : ServerState)
    (token sessionId message : String) (s : Session) : StreamResult :=
  let hist1 := (mapGet st.chatHistories sessionId).getD [] ++ [Msg.user message]
  let sessions2 :=
    mapSet st.sessions token { s with messagesRemaining := s.messagesRemaining - 1 }
  match providerPhase provider env hist1 with
  | .failed e h _ trace =>
    ⟨.sse [SSE.fatal e],
     { sessions := sessions2,
       chatHistories := storeOnThrow st.chatHistories sessionId h,
       activeRequests := st.activeRequests }, trace⟩
  | .done _ h _ _ trace =>
    let chunks := (streams 0).filter (fun c => c != "")
    ⟨.sse ((chunks.map SSE.contentChunk) ++ [SSE.done]),
     { sessions := sessions2,
       chatHistories := mapSet st.chatHistories sessionId
         (trimHistory (h ++ [Msg.assistant (some (String.join chunks)) []])),
       activeRequests := st.activeRequests },
     trace ++ [true]⟩

/-! ## Lemmas about the map model -/

theorem mapGet_mapSet_self {α : Type} (m : List (String × α)) (k : String) (v : α) :
    mapGet (mapSet m k v) k = some v := by
  induction m with
  | nil => simp [mapGet, mapSet]
  | cons hd tl ih =>
    obtain ⟨k2, v2⟩ := hd
    by_cases h : k2 = k
    · subst h
      simp [mapGet, mapSet]
    · simp only [mapSet, beq_iff_eq, if_neg h, mapGet, ih]

theorem mapGet_mapSet_ne {α : Type} (m : List (String × α)) (k j : String) (v : α)
    (h : j ≠ k) : mapGet (mapSet m k v) j = mapGet m j := by
  induction m with
  | nil => simp [mapGet, mapSet, beq_iff_eq, Ne.symm h]
  | cons hd tl ih =>
    obtain ⟨k2, v2⟩ := hd
    by_cases h2 : k2 = k
    · subst h2
      simp [mapGet, mapSet, beq_iff_eq, Ne.symm h]
    · simp only [mapSet, beq_iff_eq, if_neg h2, mapGet, ih]

theorem mapGet_mapDel_self {α : Type} (m : List (String × α)) (k : String) :
    mapGet (mapDel m k) k = none := by
  induction m with
  | nil => simp [mapGet, mapDel]
  | cons hd tl ih =>
    obtain ⟨k2, v2⟩ := hd
    by_cases h : k2 = k
    · subst h
      simp [mapDel, ih]
    · simp only [mapDel, mapGet, beq_iff_eq, if_neg h, ih]

theorem mapGet_mapDel_ne {α : Type} (m : List (String × α)) (k j : String)
    (h : j ≠ k) : mapGet (mapDel m k) j = mapGet m j := by
  induction m with
  | nil => simp [mapGet, mapDel]
  | cons hd tl ih =>
    obtain ⟨k2, v2⟩ := hd
    by_cases h2 : k2 = k
    · subst h2
      simp [mapDel, mapGet, beq_iff_eq, Ne.symm h, ih]
    · simp only [mapDel, beq_iff_eq, if_neg h2, mapGet, ih]

/-! ## C8: origin throttle on session creation -/

/-- C8: the Nth `createSession` call within a rolling day, where the
count has reached the daily cap (3) and `resetAt` is still in the future,
is blocked with the 429 quota error and mints no session, leaving the
throttle record unchanged; a successful call increments an in-window
record or initializes it with `resetAt` 24 hours ahead, minting a session
with the full quota and a 24h TTL; and once `resetAt` has elapsed the
next call succeeds with a fresh count of 1. -/
theorem C8_origin_throttle :
    (∀ (d : IpData) (now : Nat), now < d.resetAt →
      MAX_TOKENS_PER_IP_PER_DAY ≤ d.count →
      createSession (some d) now = (.blocked d.resetAt, some d)) ∧
    (∀ (d : IpData) (now : Nat), now < d.resetAt →
      d.count < MAX_TOKENS_PER_IP_PER_DAY →
      createSession (some d) now =
        (.created { expiresAt := now + DAY_MS, messagesRemaining := MAX_MESSAGES_PER_TOKEN },
         some { count := d.count + 1, resetAt := d.resetAt })) ∧
    (∀ (d : IpData) (now : Nat), d.resetAt ≤ now →
      createSession (some d) now =
        (.created { expiresAt := now + DAY_MS, messagesRemaining := MAX_MESSAGES_PER_TOKEN },
         some { count := 1, resetAt := now + DAY_MS })) ∧
    (∀ now : Nat, createSession none now =
      (.created { expiresAt := now + DAY_MS, messagesRemaining := MAX_MESSAGES_PER_TOKEN },
       some { count := 1, resetAt := now + DAY_MS })) := by
  refine ⟨?_, ?_, ?_, ?_⟩
  · intro d now h1 h2
    simp [createSession, h1, h2, decide_eq_true_iff]
  · intro d now h1 h2
    have h3 : ¬ MAX_TOKENS_PER_IP_PER_DAY ≤ d.count := Nat.not_le.mpr h2
    simp [createSession, h1, h3]
  · intro d now h1
    have h2 : ¬ now < d.resetAt := Nat.not_lt.mpr h1
    simp [createSession, h2]
  · intro now
    simp [createSession]

/-- Witness for C8: with a full record (count 3) and `resetAt` still
ahead, creation at time 50 is blocked; after `resetAt` elapses, creation
at time 200 succeeds with a fresh count of 1. -/
theorem C8_origin_throttle_witness :
    createSession (some { count := 3, resetAt := 100 }) 50 =
      (.blocked 100, some { count := 3, resetAt := 100 }) ∧
    createSession (some { count := 3, resetAt := 100 }) 200 =
      (.created { expiresAt := 200 + DAY_MS, messagesRemaining := MAX_MESSAGES_PER_TOKEN },
       some { count := 1, resetAt := 200 + DAY_MS }) :=
  ⟨C8_origin_throttle.1 { count := 3, resetAt := 100 } 50 (by decide) (by decide),
   C8_origin_throttle.2.2.1 { count := 3, resetAt := 100 } 200 (by decide)⟩

/-! ## C9: quota monotonicity and the 25-message scenario -/

theorem decrement_step (m : List (String × Session)) (token : String) (s : Session)
    (hs : mapGet m token = some s) :
    ∃ s2, mapGet (decrementSessionMessages m token).2 token = some s2 ∧
      s2.messagesRemaining ≤ s.messagesRemaining ∧
      (0 ≤ s.messagesRemaining → 0 ≤ s2.messagesRemaining) := by
  unfold decrementSessionMessages
  rw [hs]
  by_cases h : s.messagesRemaining ≤ 0
  · exact ⟨s, by simp [h, hs], le_refl _, fun h2 => h2⟩
  · refine ⟨{ s with messagesRemaining := s.messagesRemaining - 1 }, ?_, ?_, ?_⟩
    · simp only [if_neg h]
      exact mapGet_mapSet_self m token _
    · show s.messagesRemaining - 1 ≤ s.messagesRemaining
      omega
    · intro h2
      show (0 : Int) ≤ s.messagesRemaining - 1
      omega

theorem decNTimes_invariant (token : String) (k : Nat) :
    ∀ (m : List (String × Session)) (s : Session), mapGet m token = some s →
      ∃ s2, mapGet (decNTimes token k m) token = some s2 ∧
        s2.messagesRemaining ≤ s.messagesRemaining ∧
        (0 ≤ s.messagesRemaining → 0 ≤ s2.messagesRemaining) := by
  induction k with
  | zero => intro m s hs; exact ⟨s, hs, le_refl _, fun h => h⟩
  | succ k ih =>
    intro m s hs
    obtain ⟨s1, hs1, hle1, hpos1⟩ := decrement_step m token s hs
    obtain ⟨s2, hs2, hle2, hpos2⟩ := ih _ s1 hs1
    exact ⟨s2, hs2, le_trans hle2 hle1, fun h => hpos2 (hpos1 h)⟩

/-- C9: `decrementSessionMessages` is the only quota mutation: it returns
`false` leaving the store unchanged when the session is absent or
`messagesRemaining ≤ 0`, and otherwise decrements by exactly one and
returns `true`; over any number of decrements `messagesRemaining` is
non-increasing and never becomes negative; and a fresh session with 25
messages accepts exactly 25 decrements, reaching 0, after which the 26th
is refused and the stored quota stays 0. -/
theorem C9_quota_monotonic :
    (∀ (m : List (String × Session)) (token : String),
      mapGet m token = none → decrementSessionMessages m token = (false, m)) ∧
    (∀ (m : List (String × Session)) (token : String) (s : Session),
      mapGet m token = some s → s.messagesRemaining ≤ 0 →
      decrementSessionMessages m token = (false, m)) ∧
    (∀ (m : List (String × Session)) (token : String) (s : Session),
      mapGet m token = some s → 0 < s.messagesRemaining →
      decrementSessionMessages m token =
        (true, mapSet m token { s with messagesRemaining := s.messagesRemaining - 1 })) ∧
    (∀ (m : List (String × Session)) (token : String) (s : Session) (k : Nat),
      mapGet m token = some s → 0 ≤ s.messagesRemaining →
      ∃ s2, mapGet (decNTimes token k m) token = some s2 ∧
        0 ≤ s2.messagesRemaining ∧ s2.messagesRemaining ≤ s.messagesRemaining) ∧
    (allAccepted ("t25") 25 freshSessionStore = true ∧
     mapGet (decNTimes ("t25") 25 freshSessionStore) ("t25") =
       some { expiresAt := DAY_MS, messagesRemaining := 0 } ∧
     decrementSessionMessages (decNTimes ("t25") 25 freshSessionStore) ("t25") =
       (false, decNTimes ("t25") 25 freshSessionStore)) := by
  refine ⟨?_, ?_, ?_, ?_, by decide⟩
  · intro m token h
    unfold decrementSessionMessages
    rw [h]
  · intro m token s hs h
    unfold decrementSessionMessages
    rw [hs]
    simp [h]
  · intro m token s hs h
    unfold decrementSessionMessages
    rw [hs]
    simp [Int.not_le.mpr h]
  · intro m token s k hs h0
    obtain ⟨s2, hs2, hle, hpos⟩ := decNTimes_invariant token k m s hs
    exact ⟨s2, hs2, hpos h0, hle⟩

/-- Witness for C9: the conditional clauses applied to the fresh
one-session store. -/
theorem C9_quota_monotonic_witness :
    decrementSessionMessages freshSessionStore ("absent") = (false, freshSessionStore) ∧
    decrementSessionMessages freshSessionStore ("t25") =
      (true, mapSet freshSessionStore ("t25")
        { expiresAt := DAY_MS, messagesRemaining := 24 }) ∧
    (∃ s2, mapGet (decNTimes ("t25") 3 freshSessionStore) ("t25") = some s2 ∧
      0 ≤ s2.messagesRemaining ∧ s2.messagesRemaining ≤ MAX_MESSAGES_PER_TOKEN) :=
  ⟨C9_quota_monotonic.1 freshSessionStore ("absent") (by decide),
   C9_quota_monotonic.2.2.1 freshSessionStore ("t25")
     { expiresAt := DAY_MS, messagesRemaining := MAX_MESSAGES_PER_TOKEN }
     (by decide) (by decide),
   C9_quota_monotonic.2.2.2.1 freshSessionStore ("t25")
     { expiresAt := DAY_MS, messagesRemaining := MAX_MESSAGES_PER_TOKEN } 3
     (by decide) (by decide)⟩

/-! ## C10: the transcript-clear endpoint -/

/-- C10: `DELETE /ai/chat/:sessionId` takes no session token and checks
nothing: for every store and every id (present or not) it reports
success, afterwards no history is stored under the id, and histories
under other ids are untouched. -/
theorem C10_delete_unguarded :
    (∀ (h : List (String × List Msg)) (id : String),
      (deleteChatHistory h id).1 = true) ∧
    (∀ (h : List (String × List Msg)) (id : String),
      mapGet (deleteChatHistory h id).2 id = none) ∧
    (∀ (h : List (String × List Msg)) (id id2 : String), id2 ≠ id →
      mapGet (deleteChatHistory h id).2 id2 = mapGet h id2) := by
  refine ⟨fun h id => rfl, fun h id => mapGet_mapDel_self h id,
    fun h id id2 hne => mapGet_mapDel_ne h id id2 hne⟩

/-- Witness for C10: clearing an unknown conversation id on a store that
holds a different conversation succeeds and leaves the other
conversation in place. -/
theorem C10_delete_unguarded_witness :
    (deleteChatHistory [(("conv1"), [Msg.user ("hello")])] ("unknown")).1 = true ∧
    mapGet (deleteChatHistory [(("conv1"), [Msg.user ("hello")])] ("unknown")).2 ("unknown") = none ∧
    mapGet (deleteChatHistory [(("conv1"), [Msg.user ("hello")])] ("unknown")).2 ("conv1") =
      mapGet [(("conv1"), [Msg.user ("hello")])] ("conv1") :=
  ⟨C10_delete_unguarded.1 [(("conv1"), [Msg.user ("hello")])] ("unknown"),
   C10_delete_unguarded.2.1 [(("conv1"), [Msg.user ("hello")])] ("unknown"),
   C10_delete_unguarded.2.2 [(("conv1"), [Msg.user ("hello")])] ("unknown") ("conv1")
     (by decide)⟩

/-! ## C1: transcript trimming and Invariant A -/

theorem blocks_replicate_user (n : Nat) (s : String) :
    Blocks (List.replicate n (Msg.user s)) := by
  induction n with
  | zero => exact Blocks.nil
  | succ n ih => rw [List.replicate_succ]; exact Blocks.userTurn s ih

theorem zipWith_tool_isTool (tcs : List ToolCall) :
    ∀ (txts : List String) (m : Msg),
      m ∈ List.zipWith (fun tc t => Msg.tool tc.id t) tcs txts → isToolMsg m = true := by
  induction tcs with
  | nil => intro txts m hm; simp at hm
  | cons tc tcs ih =>
    intro txts m hm
    cases txts with
    | nil => simp at hm
    | cons t txts =>
      simp only [List.zipWith, List.mem_cons] at hm
      rcases hm with h | h
      · subst h; rfl
      · exact ih txts m h

theorem suffixShape_of_blocks {h : List Msg} (hb : Blocks h) : SuffixShape h :=
  ⟨[], h, rfl, by intro m hm; simp at hm, hb⟩

theorem suffixShape_drop_one {l : List Msg} (hs : SuffixShape l) :
    SuffixShape (l.drop 1) := by
  obtain ⟨ts, h2, heq, hts, hb⟩ := hs
  cases ts with
  | cons t ts =>
    refine ⟨ts, h2, ?_, fun m hm => hts m (List.mem_cons_of_mem t hm), hb⟩
    subst heq; rfl
  | nil =>
    simp only [List.nil_append] at heq
    subst heq
    cases hb with
    | nil => exact ⟨[], [], rfl, by intro m hm; simp at hm, Blocks.nil⟩
    | userTurn s hrest => exact suffixShape_of_blocks hrest
    | plainAssistant c hrest => exact suffixShape_of_blocks hrest
    | toolBlock c tcs txts hne hlen hrest =>
      refine ⟨List.zipWith (fun tc t => Msg.tool tc.id t) tcs txts, _, rfl,
        fun m hm => zipWith_tool_isTool tcs txts m hm, hrest⟩

theorem suffixShape_drop {l : List Msg} (hs : SuffixShape l) (k : Nat) :
    SuffixShape (l.drop k) := by
  induction k with
  | zero => exact hs
  | succ k ih =>
    have : l.drop (k + 1) = (l.drop k).drop 1 := by
      rw [List.drop_drop, Nat.add_comm]
    rw [this]
    exact suffixShape_drop_one ih

theorem blocks_head_not_tool {h : List Msg} (hb : Blocks h) :
    dropLeadingTools h = h := by
  cases hb with
  | nil => rfl
  | userTurn s hrest => rfl
  | plainAssistant c hrest => rfl
  | toolBlock c tcs txts hne hlen hrest => rfl

theorem dropLeadingTools_tools_append (ts : List Msg) (h2 : List Msg)
    (hts : ∀ m ∈ ts, isToolMsg m = true) (hb : Blocks h2) :
    dropLeadingTools (ts ++ h2) = h2 := by
  induction ts with
  | nil => simpa using blocks_head_not_tool hb
  | cons t ts ih =>
    have ht : isToolMsg t = true := hts t (List.mem_cons_self t ts)
    cases t with
    | tool cid s =>
      simp only [List.cons_append, dropLeadingTools, isToolMsg, if_pos]
      exact ih (fun m hm => hts m (List.mem_cons_of_mem _ hm))
    | user s => simp [isToolMsg] at ht
    | assistant c tcs => simp [isToolMsg] at ht

theorem blocks_keep_dangling {h : List Msg} (hb : Blocks h) :
    dropDanglingAssistant h = h := by
  cases hb with
  | nil => rfl
  | userTurn s hrest => rfl
  | plainAssistant c hrest => simp [dropDanglingAssistant]
  | toolBlock c tcs txts hne hlen hrest =>
    cases tcs with
    | nil => exact absurd rfl hne
    | cons tc tcs =>
      cases txts with
      | nil => simp at hlen
      | cons t txts =>
        simp only [List.zipWith, List.cons_append]
        simp [dropDanglingAssistant]

theorem noOrphanFrom_zipWith (tcs : List ToolCall) :
    ∀ (txts : List String) (seen : List String) (rest : List Msg),
      (∀ tc ∈ tcs, tc.id ∈ seen) → noOrphanFrom seen rest = true →
      noOrphanFrom seen (List.zipWith (fun tc t => Msg.tool tc.id t) tcs txts ++ rest) = true := by
  induction tcs with
  | nil => intro txts seen rest hin hrest; simpa using hrest
  | cons tc tcs ih =>
    intro txts seen rest hin hrest
    cases txts with
    | nil => simpa using hrest
    | cons t txts =>
      simp only [List.zipWith, List.cons_append, noOrphanFrom, Bool.and_eq_true,
        decide_eq_true_eq]
      exact ⟨hin tc (List.mem_cons_self tc tcs),
        ih txts seen rest (fun tc2 h => hin tc2 (List.mem_cons_of_mem tc h)) hrest⟩

theorem blocks_noOrphanFrom {h : List Msg} (hb : Blocks h) :
    ∀ seen : List String, noOrphanFrom seen h = true := by
  induction hb with
  | nil => intro seen; rfl
  | userTurn s hrest ih => intro seen; exact ih seen
  | plainAssistant c hrest ih =>
    intro seen
    simpa [noOrphanFrom] using ih seen
  | toolBlock c tcs txts hne hlen hrest ih =>
    intro seen
    simp only [noOrphanFrom]
    refine noOrphanFrom_zipWith tcs txts _ _ ?_ (ih _)
    intro tc htc
    exact List.mem_append_right seen (List.mem_map_of_mem (fun tc => tc.id) htc)

theorem trim_preserves_no_orphan {h : List Msg} (hb : Blocks h) :
    noOrphanTool (trimHistory h) = true := by
  unfold trimHistory
  by_cases hlen : MAX_HISTORY_LENGTH < h.length
  · rw [if_pos hlen]
    obtain ⟨ts, h2, heq, hts, hb2⟩ :=
      suffixShape_drop (suffixShape_of_blocks hb) (h.length - MAX_HISTORY_LENGTH)
    rw [heq, dropLeadingTools_tools_append ts h2 hts hb2, blocks_keep_dangling hb2]
    exact blocks_noOrphanFrom hb2 []
  · rw [if_neg hlen]
    exact blocks_noOrphanFrom hb []

/-- C1 counterexample: the claim fails on the code as stated.  On the
21-message transcript `orphanTrimInput`, the trim slices to 20 messages
and its repair pass keeps a leading assistant message (because the next
message has role `tool`) without matching call ids and without
repeating, so the retained, nonempty transcript contains a `tool`
message (`call_b`) with no preceding matching assistant message:
Invariant A does not hold after the trim. -/
theorem C1_trim_counterexample :
    MAX_HISTORY_LENGTH < orphanTrimInput.length ∧
    trimHistory orphanTrimInput ≠ [] ∧
    noOrphanTool (trimHistory orphanTrimInput) = false := by decide

/-- C1 (amended): the repair pass drops leading orphaned `tool` messages
and at most one leading assistant message with `tool_calls` (judging
only by the role of the following message, without matching call ids and
without repeating).  For transcripts of the block shape the engine
itself produces — every assistant message with tool calls immediately
followed by its complete, contiguous tool answers — any trim leaves no
orphaned tool message; for arbitrary transcripts it can
(`C1_trim_counterexample`). -/
theorem C1_trim_no_orphan (h : List Msg) (hb : Blocks h) :
    noOrphanTool (trimHistory h) = true :=
  trim_preserves_no_orphan hb

/-- Witness for C1: a 21-message block-shaped transcript whose tool block
sits at the cut edge. -/
theorem C1_trim_no_orphan_witness :
    noOrphanTool (trimHistory blockHistory) = true :=
  C1_trim_no_orphan blockHistory
    (Blocks.toolBlock (some ("checking")) [tcBlockW] [("free slots")]
      (by decide) (by decide) (blocks_replicate_user 19 ("padding")))

/-! ## C2: tool failures are absorbed at the dispatch boundary -/

theorem executeUITool_total (env : Env) (name : String) (args : ToolArgs)
    (hist : List (String × String)) (hmem : name ∈ uiToolNames)
    (hloc : validLocale (args.locale.getD ("en")) = true) :
    (executeUITool env name args true hist).isOk = true := by
  fin_cases hmem
  · simp [Except.isOk, Except.toBool, executeUITool, createContactButtons, hloc]
  · cases hbd : args.bookingDetails with
    | none => simp [Except.isOk, Except.toBool, executeUITool, hbd]
    | some bd =>
      simp only [executeUITool, hbd]
      by_cases hc : (!truthy bd.name && !truthy bd.email && !truthy bd.phone) = true
      · simp [Except.isOk, Except.toBool, hc]
      · simp [Except.isOk, Except.toBool, hc, createBookingActionButtons, hloc,
          Bool.not_eq_true _ ▸ (Bool.eq_false_iff.mpr hc)]
  · simp [Except.isOk, Except.toBool, executeUITool, createEmailForm, hloc]
  · simp [Except.isOk, Except.toBool, executeUITool, createPricingTable, hloc]
  · simp [Except.isOk, Except.toBool, executeUITool, createContactButtons, hloc]
  · cases hm : args.message with
    | none => simp [Except.isOk, Except.toBool, executeUITool, hm]
    | some msg =>
      cases hse : env.sendEmailOutcome with
      | error e => simp [Except.isOk, Except.toBool, executeUITool, hm, hse]
      | ok u => simp [Except.isOk, Except.toBool, executeUITool, hm, hse]

theorem executeToolCall_isOk (env : Env) (name : String) (args : ToolArgs)
    (hist : List Msg) (hok : ArgsOk name args = true) :
    (executeToolCall env name args hist).isOk = true := by
  rw [ArgsOk, Bool.and_eq_true] at hok
  obtain ⟨h1, h2⟩ := hok
  by_cases hmem : name ∈ uiToolNames
  · have hc2 : uiToolNames.contains name = true := by
      show List.elem name uiToolNames = true
      exact List.elem_eq_true_of_mem hmem
    rw [hc2] at h2
    simp only [Bool.not_true, Bool.false_or] at h2
    unfold executeToolCall
    rw [if_pos hmem]
    exact executeUITool_total env name args (simpleHistory hist) hmem h2
  · unfold executeToolCall
    rw [if_neg hmem]
    by_cases hsk : (name == "search_knowledge") = true
    · simp only [bne, hsk, Bool.not_true, Bool.false_or] at h1
      obtain ⟨q, hq⟩ := Option.isSome_iff_exists.mp h1
      simp only [hsk, if_true, hq]
      by_cases htop : (!args.topics.isEmpty &&
          !(List.foldr (fun topic acc =>
            match env.knowledgeByTopic topic with
            | some doc =>
              ("## Information from " ++ topic ++ ":\n\n" ++ env.extractSection doc.content q) :: acc
            | none => acc) [] args.topics).isEmpty) = true
      · simp [Except.isOk, Except.toBool, htop]
      · simp only [htop]
        cases env.searchKnowledgeFn q with
        | nil => simp [Except.isOk, Except.toBool]
        | cons r rs => simp [Except.isOk, Except.toBool]
    · simp only [hsk]
      by_cases hcal : (name == "check_calendar_availability") = true
      · simp only [hcal, if_true]
        by_cases hg : env.googleConfigured
        · cases hcs : env.calendarSummary with
          | ok s => simp [Except.isOk, Except.toBool, hg, hcs]
          | error e => simp [Except.isOk, Except.toBool, hg, hcs]
        · simp [Except.isOk, Except.toBool, hg]
      · simp only [hcal]
        by_cases hbk : (name == "send_booking_inquiry") = true
        · simp only [hbk, if_true]
          by_cases hgm : env.gmailConfigured
          · by_cases hct : (!truthy args.email && !truthy args.phone) = true
            · simp [Except.isOk, Except.toBool, hgm, hct]
            · by_cases hl : truthy args.location = true
              · by_cases harea : (outOfAreaKeywords.any
                    (fun k => strIncludes (args.location.getD ("")).toLower k)) = true
                · simp [Except.isOk, Except.toBool, hgm, hct, hl, harea]
                · cases hse : env.sendEmailOutcome with
                  | error e => simp [Except.isOk, Except.toBool, hgm, hct, hl, harea, hse]
                  | ok u => simp [Except.isOk, Except.toBool, hgm, hct, hl, harea, hse]
              · simp [Except.isOk, Except.toBool, hgm, hct, hl]
          · simp [Except.isOk, Except.toBool, hgm]
        · simp [Except.isOk, Except.toBool, hbk]

/-- C2 counterexample: the claim fails on the code as stated.  The
model answers with a tool call whose raw JSON arguments do not parse;
`JSON.parse` runs at the dispatch call site, outside any per-tool catch,
so the failure aborts the whole exchange and surfaces as an HTTP 500 —
not as a textual `ToolResult`. -/
theorem C2_counterexample :
    (handleChat malformedCallProvider env0 0 stPre reqPre ("fresh")).1.status = 500 := by
  decide

/-- C2 (amended): for every tool call whose raw arguments parse to an
argument object satisfying `ArgsOk` (a `query` string for
`search_knowledge`, and a locale the factory defines for UI tools),
dispatch never throws: whatever the collaborator outcomes — calendar
offline, mail transport down, unknown tool name — `executeToolCall`
returns a `ToolResult` whose text carries the fallback explanation.
Failures of `JSON.parse` at the call site (and the undefined-argument
`TypeError`s `ArgsOk` excludes) instead abort the exchange
(`C2_counterexample`). -/
theorem C2_dispatch_absorbs_failures (env : Env) (name : String) (args : ToolArgs)
    (hist : List Msg) (hok : ArgsOk name args = true) :
    (executeToolCall env name args hist).isOk = true :=
  executeToolCall_isOk env name args hist hok

/-- Witness for C2: the calendar tool with the calendar collaborator
down, and the booking tool with the mail transport down, both produce
`ok` textual results under `env0`. -/
theorem C2_dispatch_absorbs_failures_witness :
    (executeToolCall env0 ("check_calendar_availability") {} []).isOk = true ∧
    (executeToolCall env0 ("send_booking_inquiry") {} []).isOk = true :=
  ⟨C2_dispatch_absorbs_failures env0 ("check_calendar_availability") {} [] (by decide),
   C2_dispatch_absorbs_failures env0 ("send_booking_inquiry") {} [] (by decide)⟩

/-! ## C3: the iteration bound of the agent loop -/

theorem runToolBatch_ok (env : Env) (calls : List ToolCall) :
    ∀ (hist : List Msg) (ui : List UIRes),
      (∀ tc ∈ calls, goodCall tc = true) →
      ∃ h2 ui2, runToolBatch env calls hist ui = .ok h2 ui2 := by
  induction calls with
  | nil => intro hist ui _; exact ⟨hist, ui, rfl⟩
  | cons tc rest ih =>
    intro hist ui h
    have htc := h tc (List.mem_cons_self tc rest)
    have hrest := fun tc2 h2 => h tc2 (List.mem_cons_of_mem tc h2)
    obtain ⟨tcid, tcname, tcargs⟩ := tc
    unfold goodCall at htc
    cases tcargs with
    | malformed raw => simp at htc
    | parsed a =>
      dsimp only at htc
      have hok := executeToolCall_isOk env tcname a hist htc
      simp only [runToolBatch]
      cases hexec : executeToolCall env tcname a hist with
      | error e => rw [hexec] at hok; simp [Except.isOk, Except.toBool] at hok
      | ok r => exact ih _ _ hrest

theorem agentLoop_adversarial (provider : Provider) (env : Env)
    (hadv : ∀ n, ∃ am, provider n = .ok am ∧ am.tool_calls ≠ [] ∧
      ∀ tc ∈ am.tool_calls, goodCall tc = true) :
    ∀ (fuel : Nat) (am : ModelMessage) (hist : List Msg) (ui : List UIRes)
      (calls : Nat) (trace : List Bool),
      am.tool_calls ≠ [] → (∀ tc ∈ am.tool_calls, goodCall tc = true) →
      ∃ amF h2 ui2 tr2,
        agentLoop provider env fuel am hist ui calls trace =
          .done amF h2 ui2 (calls + fuel) tr2 ∧
        (fuel = 0 → amF = am) ∧
        (0 < fuel → provider (calls + fuel - 1) = .ok amF) := by
  intro fuel
  induction fuel with
  | zero =>
    intro am hist ui calls trace _ _
    exact ⟨am, hist, ui, trace, rfl, fun _ => rfl,
      fun h => absurd h (Nat.lt_irrefl 0)⟩
  | succ fuel ih =>
    intro am hist ui calls trace hne hgood
    have hempty : am.tool_calls.isEmpty = false := by
      cases h : am.tool_calls with
      | nil => exact absurd h hne
      | cons a b => rfl
    unfold agentLoop
    simp only [hempty, Bool.false_eq_true, if_false]
    obtain ⟨hb, ub, hbatch⟩ := runToolBatch_ok env am.tool_calls
      (hist ++ [Msg.assistant am.content am.tool_calls]) ui hgood
    obtain ⟨am2, ham2, hne2, hgood2⟩ := hadv calls
    simp only [hbatch, ham2]
    obtain ⟨amF, h2, ui2, tr2, heq, h0, hpos⟩ :=
      ih am2 hb ub (calls + 1) (trace ++ [false]) hne2 hgood2
    refine ⟨amF, h2, ui2, tr2, ?_, ?_, ?_⟩
    · rw [heq]
      have harith : calls + 1 + fuel = calls + (fuel + 1) := by omega
      rw [harith]
    · intro h
      exact absurd h (Nat.succ_ne_zero fuel)
    · intro _
      by_cases hf : fuel = 0
      · subst hf
        have hF := h0 rfl
        subst hF
        have harith : calls + (0 + 1) - 1 = calls := by omega
        rw [harith]
        exact ham2
      · have hstep := hpos (Nat.pos_of_ne_zero hf)
        have harith : calls + 1 + fuel - 1 = calls + (fuel + 1) - 1 := by omega
        rw [harith] at hstep
        exact hstep

/-- C3 counterexample: the claim fails on the code as stated.  Under the
adversarial provider that requests another tool call on every response,
one exchange makes 6 provider calls (the initial call plus
`maxIterations` in-loop calls), not exactly `maxIterations` (5). -/
theorem C3_counterexample :
    exchangeCalls (chatExchange advProvider env0 [Msg.user ("hi")]) ≠ maxIterations := by
  decide

/-- C3 (amended): if the provider returns (well-formed) tool calls on
every invocation, the exchange terminates after exactly
`maxIterations + 1` = 6 model calls — one initial call plus
`maxIterations` in-loop calls — and force-terminates by appending a
final assistant message whose text is the last response's `content`
field (empty string when the content is null), dropping its pending
tool calls. -/
theorem C3_iteration_bound (provider : Provider) (env : Env) (hist1 : List Msg)
    (hadv : ∀ n, ∃ am, provider n = .ok am ∧ am.tool_calls ≠ [] ∧
      ∀ tc ∈ am.tool_calls, goodCall tc = true) :
    ∃ amF h ui trace, provider maxIterations = .ok amF ∧
      chatExchange provider env hist1 =
        .ok amF.content (h ++ [Msg.assistant (some (amF.content.getD (""))) []])
          ui (maxIterations + 1) trace := by
  obtain ⟨am0, ham0, hne0, hgood0⟩ := hadv 0
  obtain ⟨amF, h2, ui2, tr2, heq, _, hpos⟩ :=
    agentLoop_adversarial provider env hadv maxIterations am0 hist1 [] 1 [false]
      hne0 hgood0
  refine ⟨amF, h2, ui2, tr2, ?_, ?_⟩
  · have hstep := hpos (by decide)
    have harith : 1 + maxIterations - 1 = maxIterations := by omega
    rw [harith] at hstep
    exact hstep
  · unfold chatExchange providerPhase
    simp only [ham0, heq]
    have harith : 1 + maxIterations = maxIterations + 1 := Nat.add_comm 1 maxIterations
    rw [harith]

/-- Witness for C3: the adversarial provider with the
everything-offline environment. -/
theorem C3_iteration_bound_witness :
    ∃ amF h ui trace, advProvider maxIterations = .ok amF ∧
      chatExchange advProvider env0 [Msg.user ("hi")] =
        .ok amF.content (h ++ [Msg.assistant (some (amF.content.getD (""))) []])
          ui (maxIterations + 1) trace :=
  C3_iteration_bound advProvider env0 [Msg.user ("hi")]
    (fun _ => ⟨_, rfl, by decide, by decide⟩)

/-! ## C4: Invariant B fails on a dispatcher throw -/

/-- C4: the code violates the claim.  With a conversation already stored
(`conv1` in `stPre`), the local `history` aliases the stored array, so
when the model requests a tool call whose JSON arguments do not parse,
the exchange throws *after* pushing the assistant message with its
`tool_calls` and *before* pushing any `tool` answer.  The route's catch
returns 500 and the stored transcript now ends on an assistant message
with unanswered `tool_calls`. -/
theorem C4_code_bug_exhibit :
    (handleChat malformedCallProvider env0 0 stPre reqPre ("fresh")).1.status = 500 ∧
    endsOnUnansweredAssistant
      ((mapGet (handleChat malformedCallProvider env0 0 stPre reqPre ("fresh")).2.chatHistories
        ("conv1")).getD []) = true := by
  decide

/-! ## Route evaluation lemmas -/

theorem contains_eq_false_of_not_mem {l : List String} {a : String}
    (h : a ∉ l) : l.contains a = false := by
  cases hc : l.contains a with
  | false => rfl
  | true => exact absurd (List.mem_of_elem_eq_true hc) h

theorem guardRelease_cons {a : List String} {id : String} (h : id ∉ a) :
    guardRelease (id :: a) id = a := by
  unfold guardRelease
  rw [List.filter_cons_of_neg]
  · apply List.filter_eq_self.mpr
    intro x hx
    simp only [bne_iff_ne, ne_eq, decide_eq_true_eq]
    intro hxe
    exact h (hxe ▸ hx)
  · simp

theorem validate_ok {sessions : List (String × Session)} {token : String}
    {now : Nat} {s : Session} (hsess : mapGet sessions token = some s)
    (hexp : ¬ s.expiresAt < now) :
    validateSessionToken sessions token now = (some s, sessions) := by
  unfold validateSessionToken
  rw [hsess]
  dsimp only
  rw [if_neg hexp]

theorem decrement_ok {sessions : List (String × Session)} {token : String}
    {s : Session} (hsess : mapGet sessions token = some s)
    (hquota : 0 < s.messagesRemaining) :
    decrementSessionMessages sessions token =
      (true, mapSet sessions token
        { s with messagesRemaining := s.messagesRemaining - 1 }) := by
  unfold decrementSessionMessages
  rw [hsess]
  dsimp only
  rw [if_neg (not_le.mpr hquota)]

theorem handleChat_eq (provider : Provider) (env : Env) (now : Nat)
    (st : ServerState) (req : ChatRequest) (freshId token : String) (s : Session)
    (hmsg : req.message ≠ "")
    (htok : req.sessionToken = some token)
    (hsess : mapGet st.sessions token = some s)
    (hexp : ¬ s.expiresAt < now)
    (hquota : 0 < s.messagesRemaining)
    (hlen : req.message.length ≤ 10000)
    (hact : req.sessionId.getD freshId ∉ st.activeRequests) :
    handleChat provider env now st req freshId =
      handleChatCore provider env st token (req.sessionId.getD freshId)
        req.message s := by
  have hbeq : (req.message == "") = false := beq_eq_false_iff_ne.mpr hmsg
  have hcont : st.activeRequests.contains (req.sessionId.getD freshId) = false :=
    contains_eq_false_of_not_mem hact
  unfold handleChat
  rw [htok]
  simp only [hbeq, Bool.false_eq_true, if_false, validate_ok hsess hexp,
    if_neg (not_le.mpr hquota), if_neg (Nat.not_lt.mpr hlen)]
  unfold guardAcquire
  simp only [hcont, Bool.false_eq_true, if_false]
  rw [decrement_ok hsess hquota]
  unfold handleChatCore
  rw [guardRelease_cons hact]

theorem handleChatStream_eq (provider : Provider) (env : Env)
    (streams : Nat → List String) (now : Nat)
    (st : ServerState) (req : ChatRequest) (freshId token : String) (s : Session)
    (hmsg : req.message ≠ "")
    (htok : req.sessionToken = some token)
    (hsess : mapGet st.sessions token = some s)
    (hexp : ¬ s.expiresAt < now)
    (hquota : 0 < s.messagesRemaining)
    (hlen : req.message.length ≤ 10000)
    (hact : req.sessionId.getD freshId ∉ st.activeRequests) :
    handleChatStream provider env streams now st req freshId =
      handleChatStreamCore provider env streams st token
        (req.sessionId.getD freshId) req.message s := by
  have hbeq : (req.message == "") = false := beq_eq_false_iff_ne.mpr hmsg
  have hcont : st.activeRequests.contains (req.sessionId.getD freshId) = false :=
    contains_eq_false_of_not_mem hact
  unfold handleChatStream
  rw [htok]
  simp only [hbeq, Bool.false_eq_true, if_false, validate_ok hsess hexp,
    if_neg (not_le.mpr hquota), if_neg (Nat.not_lt.mpr hlen)]
  unfold guardAcquire
  simp only [hcont, Bool.false_eq_true, if_false]
  rw [decrement_ok hsess hquota]
  unfold handleChatStreamCore
  rw [guardRelease_cons hact]

/-! ## C5: the streaming variant makes exactly one streaming call -/

theorem agentLoop_good (provider : Provider) (env : Env)
    (hprov : ∀ n, ∃ am, provider n = .ok am ∧
      ∀ tc ∈ am.tool_calls, goodCall tc = true) :
    ∀ (fuel : Nat) (am : ModelMessage) (hist : List Msg) (ui : List UIRes)
      (calls : Nat) (trace : List Bool),
      (∀ tc ∈ am.tool_calls, goodCall tc = true) →
      ∃ amF h2 ui2 k,
        agentLoop provider env fuel am hist ui calls trace =
          .done amF h2 ui2 (calls + k) (trace ++ List.replicate k false) := by
  intro fuel
  induction fuel with
  | zero =>
    intro am hist ui calls trace _
    exact ⟨am, hist, ui, 0, by simp [agentLoop]⟩
  | succ fuel ih =>
    intro am hist ui calls trace hgood
    by_cases hempty : am.tool_calls.isEmpty = true
    · refine ⟨am, hist, ui, 0, ?_⟩
      unfold agentLoop
      simp [hempty]
    · have hfalse : am.tool_calls.isEmpty = false := Bool.eq_false_iff.mpr hempty
      unfold agentLoop
      simp only [hfalse, Bool.false_eq_true, if_false]
      obtain ⟨hb, ub, hbatch⟩ := runToolBatch_ok env am.tool_calls
        (hist ++ [Msg.assistant am.content am.tool_calls]) ui hgood
      obtain ⟨am2, ham2, hgood2⟩ := hprov calls
      simp only [hbatch, ham2]
      obtain ⟨amF, h2, ui2, k, heq⟩ := ih am2 hb ub (calls + 1) (trace ++ [false]) hgood2
      refine ⟨amF, h2, ui2, k + 1, ?_⟩
      rw [heq]
      have h1 : calls + 1 + k = calls + (k + 1) := by omega
      have h2eq : (trace ++ [false]) ++ List.replicate k false =
          trace ++ List.replicate (k + 1) false := by
        rw [List.append_assoc, List.replicate_succ, List.singleton_append]
      rw [h1, h2eq]

theorem providerPhase_good (provider : Provider) (env : Env) (hist1 : List Msg)
    (hprov : ∀ n, ∃ am, provider n = .ok am ∧
      ∀ tc ∈ am.tool_calls, goodCall tc = true) :
    ∃ amF h ui c, providerPhase provider env hist1 =
      .done amF h ui c (List.replicate c false) := by
  obtain ⟨am0, ham0, hgood0⟩ := hprov 0
  obtain ⟨amF, h2, ui2, k, heq⟩ :=
    agentLoop_good provider env hprov maxIterations am0 hist1 [] 1 [false] hgood0
  refine ⟨amF, h2, ui2, k + 1, ?_⟩
  unfold providerPhase
  simp only [ham0]
  rw [heq]
  have h1 : 1 + k = k + 1 := Nat.add_comm 1 k
  have h2eq : ([false] : List Bool) ++ List.replicate k false =
      List.replicate (k + 1) false := by
    rw [List.replicate_succ, List.singleton_append]
  rw [h1, h2eq]

/-- C5: when the request passes its guards and the provider yields a
message with dispatchable tool calls on every invocation, the streaming
route resolves tools entirely through non-streamed calls first, then
makes exactly one streaming call, as the last provider call of the
exchange; the emitted Server-Sent-Events are exactly the non-empty
content deltas of that single streaming call, in order, terminated by
the `{done:true}` marker. -/
theorem C5_single_streaming_call (provider : Provider) (env : Env)
    (streams : Nat → List String) (now : Nat) (st : ServerState)
    (req : ChatRequest) (freshId token : String) (s : Session)
    (hmsg : req.message ≠ "")
    (htok : req.sessionToken = some token)
    (hsess : mapGet st.sessions token = some s)
    (hexp : ¬ s.expiresAt < now)
    (hquota : 0 < s.messagesRemaining)
    (hlen : req.message.length ≤ 10000)
    (hact : req.sessionId.getD freshId ∉ st.activeRequests)
    (hprov : ∀ n, ∃ am, provider n = .ok am ∧
      ∀ tc ∈ am.tool_calls, goodCall tc = true) :
    ∃ c, (handleChatStream provider env streams now st req freshId).trace =
        List.replicate c false ++ [true] ∧
      (handleChatStream provider env streams now st req freshId).response =
        .sse ((((streams 0).filter (fun ch => ch != "")).map SSE.contentChunk) ++
          [SSE.done]) := by
  rw [handleChatStream_eq provider env streams now st req freshId token s
    hmsg htok hsess hexp hquota hlen hact]
  obtain ⟨amF, h2, ui2, c, heq⟩ := providerPhase_good provider env
    ((mapGet st.chatHistories (req.sessionId.getD freshId)).getD [] ++
      [Msg.user req.message]) hprov
  refine ⟨c, ?_, ?_⟩
  · unfold handleChatStreamCore
    dsimp only
    rw [heq]
  · unfold handleChatStreamCore
    dsimp only
    rw [heq]

/-- Witness for C5: a provider that answers with plain content at once,
a three-chunk stream with one empty delta, and the pre-populated server
state. -/
theorem C5_single_streaming_call_witness :
    ∃ c, (handleChatStream plainProvider env0 streams0 0 stPre reqPre ("fresh")).trace =
        List.replicate c false ++ [true] ∧
      (handleChatStream plainProvider env0 streams0 0 stPre reqPre ("fresh")).response =
        .sse ((((streams0 0).filter (fun ch => ch != "")).map SSE.contentChunk) ++
          [SSE.done]) :=
  C5_single_streaming_call plainProvider env0 streams0 0 stPre reqPre ("fresh")
    ("tok1") { expiresAt := 1000, messagesRemaining := 5 }
    (by decide) (by decide) (by decide) (by decide) (by decide) (by decide)
    (by decide) (fun _ => ⟨_, rfl, by decide⟩)

/-! ## C6: one in-flight request per conversation id -/

theorem guardStep_nodup {active a2 : List String} {e : GuardEvent}
    (hn : active.Nodup) (hstep : guardStep active e = some a2) : a2.Nodup := by
  cases e with
  | begin id =>
    unfold guardStep guardAcquire at hstep
    dsimp only at hstep
    by_cases hc : active.contains id = true
    · rw [if_pos hc] at hstep
      exact absurd hstep (by simp)
    · rw [if_neg hc] at hstep
      have hid : id ∉ active := fun hm =>
        hc (List.elem_eq_true_of_mem hm)
      cases hstep
      exact List.nodup_cons.mpr ⟨hid, hn⟩
  | reject id =>
    unfold guardStep at hstep
    dsimp only at hstep
    by_cases hc : active.contains id = true
    · rw [if_pos hc] at hstep
      cases hstep
      exact hn
    · rw [if_neg hc] at hstep
      exact absurd hstep (by simp)
  | finish id =>
    unfold guardStep at hstep
    dsimp only at hstep
    by_cases hc : active.contains id = true
    · rw [if_pos hc] at hstep
      cases hstep
      exact List.Nodup.filter _ hn
    · rw [if_neg hc] at hstep
      exact absurd hstep (by simp)

theorem guardRun_nodup (evs : List GuardEvent) :
    ∀ {active a : List String}, active.Nodup →
      guardRun active evs = some a → a.Nodup := by
  induction evs with
  | nil =>
    intro active a hn hrun
    unfold guardRun at hrun
    cases hrun
    exact hn
  | cons e es ih =>
    intro active a hn hrun
    unfold guardRun at hrun
    cases hstep : guardStep active e with
    | none => rw [hstep] at hrun; exact absurd hrun (by simp)
    | some a2 =>
      rw [hstep] at hrun
      exact ih (guardStep_nodup hn hstep) hrun

/-- C6: at most one chat request is in flight per conversation id, for
both the plain and the streaming chat route.  When an otherwise-valid
request arrives while another request for the same id is in flight, it
is rejected immediately with 429 and the server state is untouched (the
request is not queued) — `/ai/chat` returns status 429 and
`/ai/chat/stream` the 429 HTTP error with no provider call made; when
no request is in flight, neither route rejects with 429 and both
release the guard entry by the time the exchange ends, whatever its
outcome — so a subsequent request for the same id passes the guard.
Moreover, along any feasible sequence of guard events starting from the
empty guard, no id is ever held twice. -/
theorem C6_one_in_flight (provider : Provider) (env : Env)
    (streams : Nat → List String) (now : Nat)
    (st : ServerState) (req : ChatRequest) (freshId token : String) (s : Session)
    (hmsg : req.message ≠ "")
    (htok : req.sessionToken = some token)
    (hsess : mapGet st.sessions token = some s)
    (hexp : ¬ s.expiresAt < now)
    (hquota : 0 < s.messagesRemaining)
    (hlen : req.message.length ≤ 10000) :
    ((req.sessionId.getD freshId) ∈ st.activeRequests →
      (handleChat provider env now st req freshId).1.status = 429 ∧
      (handleChat provider env now st req freshId).2 = st ∧
      handleChatStream provider env streams now st req freshId =
        ⟨.httpError 429, st, []⟩) ∧
    ((req.sessionId.getD freshId) ∉ st.activeRequests →
      (handleChat provider env now st req freshId).1.status ≠ 429 ∧
      (handleChat provider env now st req freshId).2.activeRequests =
        st.activeRequests ∧
      (handleChatStream provider env streams now st req freshId).response ≠
        .httpError 429 ∧
      (handleChatStream provider env streams now st req freshId).state.activeRequests =
        st.activeRequests) ∧
    (∀ (evs : List GuardEvent) (a : List String), guardRun [] evs = some a →
      ∀ id, a.count id ≤ 1) := by
  have hbeq : (req.message == "") = false := beq_eq_false_iff_ne.mpr hmsg
  refine ⟨?_, ?_, ?_⟩
  · intro hbusy
    have hrun : handleChat provider env now st req freshId =
        ({ status := 429 }, st) := by
      unfold handleChat
      rw [htok]
      simp only [hbeq, Bool.false_eq_true, if_false, validate_ok hsess hexp,
        if_neg (not_le.mpr hquota), if_neg (Nat.not_lt.mpr hlen)]
      unfold guardAcquire
      simp only [List.elem_eq_true_of_mem hbusy, if_true]
    have hrun2 : handleChatStream provider env streams now st req freshId =
        ⟨.httpError 429, st, []⟩ := by
      unfold handleChatStream
      rw [htok]
      simp only [hbeq, Bool.false_eq_true, if_false, validate_ok hsess hexp,
        if_neg (not_le.mpr hquota), if_neg (Nat.not_lt.mpr hlen)]
      unfold guardAcquire
      simp only [List.elem_eq_true_of_mem hbusy, if_true]
    rw [hrun, hrun2]
    exact ⟨rfl, rfl, rfl⟩
  · intro hact
    refine ⟨?_, ?_, ?_, ?_⟩
    · rw [handleChat_eq provider env now st req freshId token s
        hmsg htok hsess hexp hquota hlen hact]
      unfold handleChatCore
      dsimp only
      cases chatExchange provider env
          ((mapGet st.chatHistories (req.sessionId.getD freshId)).getD [] ++
            [Msg.user req.message]) with
      | err e h calls trace =>
        show (500 : Nat) ≠ 429
        decide
      | ok reply finalHist ui calls trace =>
        show (200 : Nat) ≠ 429
        decide
    · rw [handleChat_eq provider env now st req freshId token s
        hmsg htok hsess hexp hquota hlen hact]
      unfold handleChatCore
      dsimp only
      cases chatExchange provider env
          ((mapGet st.chatHistories (req.sessionId.getD freshId)).getD [] ++
            [Msg.user req.message]) with
      | err e h calls trace => rfl
      | ok reply finalHist ui calls trace => rfl
    · rw [handleChatStream_eq provider env streams now st req freshId token s
        hmsg htok hsess hexp hquota hlen hact]
      unfold handleChatStreamCore
      dsimp only
      cases providerPhase provider env
          ((mapGet st.chatHistories (req.sessionId.getD freshId)).getD [] ++
            [Msg.user req.message]) with
      | failed e h calls trace => exact fun hcon => StreamResponse.noConfusion hcon
      | done finalMsg h ui calls trace => exact fun hcon => StreamResponse.noConfusion hcon
    · rw [handleChatStream_eq provider env streams now st req freshId token s
        hmsg htok hsess hexp hquota hlen hact]
      unfold handleChatStreamCore
      dsimp only
      cases providerPhase provider env
          ((mapGet st.chatHistories (req.sessionId.getD freshId)).getD [] ++
            [Msg.user req.message]) with
      | failed e h calls trace => rfl
      | done finalMsg h ui calls trace => rfl
  · intro evs a hrun id
    exact List.nodup_iff_count_le_one.mp
      (guardRun_nodup evs List.nodup_nil hrun) id

/-- Witness for C6: the pre-populated state with `conv1` already in
flight, for both routes. -/
theorem C6_one_in_flight_witness :
    (("conv1" : String) ∈ stBusy.activeRequests →
      (handleChat plainProvider env0 0 stBusy reqPre ("fresh")).1.status = 429 ∧
      (handleChat plainProvider env0 0 stBusy reqPre ("fresh")).2 = stBusy ∧
      handleChatStream plainProvider env0 streams0 0 stBusy reqPre ("fresh") =
        ⟨.httpError 429, stBusy, []⟩) ∧
    (("conv1" : String) ∉ stBusy.activeRequests →
      (handleChat plainProvider env0 0 stBusy reqPre ("fresh")).1.status ≠ 429 ∧
      (handleChat plainProvider env0 0 stBusy reqPre ("fresh")).2.activeRequests =
        stBusy.activeRequests ∧
      (handleChatStream plainProvider env0 streams0 0 stBusy reqPre ("fresh")).response ≠
        .httpError 429 ∧
      (handleChatStream plainProvider env0 streams0 0 stBusy reqPre ("fresh")).state.activeRequests =
        stBusy.activeRequests) ∧
    (∀ (evs : List GuardEvent) (a : List String), guardRun [] evs = some a →
      ∀ id, a.count id ≤ 1) :=
  C6_one_in_flight plainProvider env0 streams0 0 stBusy reqPre ("fresh") ("tok1")
    { expiresAt := 1000, messagesRemaining := 5 }
    (by decide) (by decide) (by decide) (by decide) (by decide) (by decide)

/-! ## C7: provider failure aborts with 500 and the quota stays spent -/

theorem agentLoop_fails_at (provider : Provider) (env : Env) (k : Nat)
    (hok : ∀ j, j < k → ∃ am, provider j = .ok am ∧ am.tool_calls ≠ [] ∧
      ∀ tc ∈ am.tool_calls, goodCall tc = true)
    (hfail : isProviderFailure (provider k) = true) :
    ∀ (fuel : Nat) (am : ModelMessage) (hist : List Msg) (ui : List UIRes)
      (calls : Nat) (trace : List Bool),
      am.tool_calls ≠ [] → (∀ tc ∈ am.tool_calls, goodCall tc = true) →
      calls ≤ k → k < calls + fuel →
      ∃ e2 h2 tr2, agentLoop provider env fuel am hist ui calls trace =
        .failed e2 h2 (k + 1) tr2 := by
  intro fuel
  induction fuel with
  | zero =>
    intro am hist ui calls trace _ _ hle hlt
    omega
  | succ fuel ih =>
    intro am hist ui calls trace hne hgood hle hlt
    have hempty : am.tool_calls.isEmpty = false := by
      cases h : am.tool_calls with
      | nil => exact absurd h hne
      | cons a b => rfl
    unfold agentLoop
    simp only [hempty, Bool.false_eq_true, if_false]
    obtain ⟨hb, ub, hbatch⟩ := runToolBatch_ok env am.tool_calls
      (hist ++ [Msg.assistant am.content am.tool_calls]) ui hgood
    by_cases hck : calls = k
    · subst hck
      cases hpk : provider calls with
      | ok am2 => rw [hpk] at hfail; simp [isProviderFailure] at hfail
      | noMessage =>
        simp only [hbatch, hpk]
        exact ⟨("No response from OpenAI"), hb, trace ++ [false], rfl⟩
      | transportError e =>
        simp only [hbatch, hpk]
        exact ⟨e, hb, trace ++ [false], rfl⟩
    · have hlt2 : calls < k := Nat.lt_of_le_of_ne hle hck
      obtain ⟨am2, ham2, hne2, hgood2⟩ := hok calls hlt2
      simp only [hbatch, ham2]
      exact ih am2 hb ub (calls + 1) (trace ++ [false]) hne2 hgood2 hlt2
        (by omega)

theorem exchange_fails_at (provider : Provider) (env : Env) (hist1 : List Msg)
    (k : Nat)
    (hok : ∀ j, j < k → ∃ am, provider j = .ok am ∧ am.tool_calls ≠ [] ∧
      ∀ tc ∈ am.tool_calls, goodCall tc = true)
    (hfail : isProviderFailure (provider k) = true)
    (hk : k ≤ maxIterations) :
    ∃ e2 h tr, chatExchange provider env hist1 = .err e2 h (k + 1) tr := by
  cases hkz : k with
  | zero =>
    subst hkz
    cases hp0 : provider 0 with
    | ok am0 => rw [hp0] at hfail; simp [isProviderFailure] at hfail
    | noMessage =>
      refine ⟨("No response from OpenAI"), hist1, [false], ?_⟩
      unfold chatExchange providerPhase
      simp only [hp0]
    | transportError e =>
      refine ⟨e, hist1, [false], ?_⟩
      unfold chatExchange providerPhase
      simp only [hp0]
  | succ k2 =>
    subst hkz
    obtain ⟨am0, ham0, hne0, hgood0⟩ := hok 0 (Nat.succ_pos k2)
    obtain ⟨e2, h2, tr2, heq⟩ := agentLoop_fails_at provider env (k2 + 1) hok hfail
      maxIterations am0 hist1 [] 1 [false] hne0 hgood0 (by omega)
      (by unfold maxIterations at hk ⊢; omega)
    unfold chatExchange providerPhase
    simp only [ham0]
    rw [heq]
    exact ⟨e2, h2, tr2, rfl⟩

/-- C7: once a request passes its guards, the per-message quota is
decremented exactly once, whatever the provider then does — the cost of
a failed exchange equals the cost of a successful one and is never
re-credited.  If the provider fails at its (k+1)-th call (index k),
whether by a transport error or by a response with no message (the
`No response from OpenAI` throw), the exchange is reported as a 500
error and stops right after the failing call — k+1 provider calls in
total, no automatic retry. -/
theorem C7_provider_failure (provider : Provider) (env : Env) (now : Nat)
    (st : ServerState) (req : ChatRequest) (freshId token : String) (s : Session)
    (k : Nat)
    (hmsg : req.message ≠ "")
    (htok : req.sessionToken = some token)
    (hsess : mapGet st.sessions token = some s)
    (hexp : ¬ s.expiresAt < now)
    (hquota : 0 < s.messagesRemaining)
    (hlen : req.message.length ≤ 10000)
    (hact : req.sessionId.getD freshId ∉ st.activeRequests)
    (hok : ∀ j, j < k → ∃ am, provider j = .ok am ∧ am.tool_calls ≠ [] ∧
      ∀ tc ∈ am.tool_calls, goodCall tc = true)
    (hfail : isProviderFailure (provider k) = true)
    (hk : k ≤ maxIterations) :
    (handleChat provider env now st req freshId).1.status = 500 ∧
    (∀ p2 : Provider,
      mapGet (handleChat p2 env now st req freshId).2.sessions token =
        some { s with messagesRemaining := s.messagesRemaining - 1 }) ∧
    exchangeCalls (chatExchange provider env
      ((mapGet st.chatHistories (req.sessionId.getD freshId)).getD [] ++
        [Msg.user req.message])) = k + 1 := by
  obtain ⟨e2, hh, htr, hexch⟩ := exchange_fails_at provider env
    ((mapGet st.chatHistories (req.sessionId.getD freshId)).getD [] ++
      [Msg.user req.message]) k hok hfail hk
  refine ⟨?_, ?_, ?_⟩
  · rw [handleChat_eq provider env now st req freshId token s
      hmsg htok hsess hexp hquota hlen hact]
    unfold handleChatCore
    dsimp only
    rw [hexch]
  · intro p2
    rw [handleChat_eq p2 env now st req freshId token s
      hmsg htok hsess hexp hquota hlen hact]
    unfold handleChatCore
    dsimp only
    cases chatExchange p2 env
        ((mapGet st.chatHistories (req.sessionId.getD freshId)).getD [] ++
          [Msg.user req.message]) with
    | err e3 h2 calls2 trace2 => exact mapGet_mapSet_self st.sessions token _
    | ok reply finalHist ui calls2 trace2 => exact mapGet_mapSet_self st.sessions token _
  · rw [hexch]
    rfl

/-- Witness for C7: a provider that returns a response with no message
on every call (failure at the first call, k = 0) against the
pre-populated state. -/
theorem C7_provider_failure_witness :
    (handleChat noMsgProvider env0 0 stPre reqPre ("fresh")).1.status = 500 ∧
    (∀ p2 : Provider,
      mapGet (handleChat p2 env0 0 stPre reqPre ("fresh")).2.sessions ("tok1") =
        some { expiresAt := 1000, messagesRemaining := 4 }) ∧
    exchangeCalls (chatExchange noMsgProvider env0
      ((mapGet stPre.chatHistories ("conv1")).getD [] ++
        [Msg.user reqPre.message])) = 0 + 1 :=
  C7_provider_failure noMsgProvider env0 0 stPre reqPre ("fresh") ("tok1")
    { expiresAt := 1000, messagesRemaining := 5 } 0
    (by decide) (by decide) (by decide) (by decide) (by decide) (by decide)
    (by decide) (fun j hj => absurd hj (Nat.not_lt_zero j)) (by decide) (by decide)

end Qinhang
